import Mathlib

/-!
Verification development for the `brawl-blacklist` dashboard (`src/app.py`).

Python strings are embedded as lists of Unicode code points (`List Nat`);
Python dicts keyed by strings are embedded as association lists in insertion
order with the usual Python semantics (overwrite in place, append when new).
Spreadsheet contents are lists of rows, each row a list of string cells.
The external player-lookup API and the Streamlit session are passed in
explicitly (a response value, a fetch oracle, a cache state).
-/

namespace BrawlBlacklist

/-- A Python `str`: the list of its Unicode code points. -/
abbrev Str := List Nat

/-- Code points of a Lean string literal, for writing concrete `Str` values. -/
def pys (s : String) : Str := s.toList.map Char.toNat

/-- The code points stripped by Python `str.strip()` that occur in this
development (the ASCII whitespace subset; the full Unicode set only adds more
code points and no claim depends on the extras). -/
def isPySpace (c : Nat) : Bool := c = 32 || c = 9 || c = 10 || c = 13 || c = 11 || c = 12

/-- `str.upper()` on one code point (ASCII range; the claims use only ASCII
letters and unicased CJK characters). -/
def pyUpperChar (c : Nat) : Nat := if 97 ≤ c ∧ c ≤ 122 then c - 32 else c

/-- `str.lower()` on one code point (ASCII range). -/
def pyLowerChar (c : Nat) : Nat := if 65 ≤ c ∧ c ≤ 90 then c + 32 else c

/-- Python `str.strip()`: drop leading and trailing whitespace. -/
def pyStrip (s : Str) : Str := ((s.dropWhile isPySpace).reverse.dropWhile isPySpace).reverse

/-- Python `str.upper()`. -/
def pyUpper (s : Str) : Str := s.map pyUpperChar

/-- Python `str.lower()`. -/
def pyLower (s : Str) : Str := s.map pyLowerChar

/-- Python `t.startswith("#")` (code point of `#` is 35). -/
def startsWithHash (s : Str) : Bool :=
  match s with
  | c :: _ => c == 35
  | [] => false

/-- `normalize_tag` from `src/app.py` lines 67-72:
`t = raw.strip().upper(); if not t.startswith("#"): t = "#" + t; return t`. -/
def normalize_tag (raw : Str) : Str :=
  if startsWithHash (pyUpper (pyStrip raw)) then pyUpper (pyStrip raw)
  else 35 :: pyUpper (pyStrip raw)

-- ## Data model: entries, Python dicts, the backing sheet

/-- One blocklist entry: `{"reasons": [...], "note": ...}`. -/
structure Entry where
  reasons : List Str
  note : Str
deriving DecidableEq, Repr

/-- A Python `dict` keyed by strings: association list in insertion order,
keys unique in any dict actually built by the program. -/
abbrev PyDict (β : Type) := List (Str × β)

/-- The in-memory entry mapping `st.session_state.entries`. -/
abbrev Dict := PyDict Entry

/-- Python `d[k]` / `d.get(k)` as an `Option`. -/
def dictGet {β : Type} : PyDict β → Str → Option β
  | [], _ => none
  | (k', v) :: rest, k => if k' = k then some v else dictGet rest k

/-- Python `d[k] = v`: overwrite in place if the key exists, else append. -/
def dictSet {β : Type} : PyDict β → Str → β → PyDict β
  | [], k, v => [(k, v)]
  | (k', v') :: rest, k, v =>
    if k' = k then (k, v) :: rest else (k', v') :: dictSet rest k v

/-- Python `d.pop(k)`: remove the binding of `k`. -/
def dictPop {β : Type} : PyDict β → Str → PyDict β
  | [], _ => []
  | (k', v') :: rest, k => if k' = k then rest else (k', v') :: dictPop rest k

/-- One spreadsheet row: a list of string cells. -/
abbrev Row := List Str

/-- The backing spreadsheet (`client.open_by_key(SHEET_KEY).sheet1`). -/
structure Sheet where
  rows : List Row
deriving DecidableEq, Repr

/-- `sheet.clear()`. -/
def sheet_clear (_s : Sheet) : Sheet := ⟨[]⟩

/-- `sheet.update(values)`: writes `values` starting at the top-left cell;
rows beyond the written range keep their previous contents. -/
def sheet_update (s : Sheet) (values : List Row) : Sheet :=
  ⟨values ++ s.rows.drop values.length⟩

/-- `",".join(reasons)` (code point of `,` is 44). -/
def joinComma (rs : List Str) : Str := List.intercalate [44] rs

/-- `r["reasons"].split(",") if r["reasons"] else []`. -/
def parseReasons (cell : Str) : List Str :=
  if cell = [] then [] else cell.splitOn 44

/-- The header row `["tag","reasons","note"]` written by the save. -/
def headerRow : Row := [pys "tag", pys "reasons", pys "note"]

/-- The row list serialized by `save_entries_to_sheet` (`src/app.py` 40-42):
header plus one row `[tag, ",".join(reasons), note]` per entry. -/
def save_rows (entries : Dict) : List Row :=
  headerRow :: entries.map (fun te => [te.1, joinComma te.2.reasons, te.2.note])

/-- `save_entries_to_sheet` (`src/app.py` 38-44): build the rows, then
`sheet.clear()` and `sheet.update(values)`. -/
def save_entries_to_sheet (s : Sheet) (entries : Dict) : Sheet :=
  sheet_update (sheet_clear s) (save_rows entries)

/-- `sheet.get_all_records()`: first row is the header; each later row becomes
a record keyed by the header cells, short rows padded with empty cells. The
loader reads columns `tag`, `reasons`, `note`; a missing column is a lookup
error (`None` here). -/
def load_entries_from_sheet (rows : List Row) : Option Dict :=
  match rows with
  | [] => some []
  | header :: body =>
    match header.findIdx? (· == pys "tag"), header.findIdx? (· == pys "reasons"),
        header.findIdx? (· == pys "note") with
    | some it, some ir, some inn =>
      some (body.foldl
        (fun d r => dictSet d (r.getD it []) ⟨parseReasons (r.getD ir []), r.getD inn []⟩) [])
    | _, _, _ => none

-- ## Player-lookup client

/-- The JSON shape returned by `GET /v1/players/{tag}` (the fields the app reads). -/
structure PlayerInfo where
  tag : Str
  name : Str
  highestTrophies : Nat
  threeVsThreeVictories : Nat
  soloVictories : Nat
  duoVictories : Nat
deriving DecidableEq, Repr

/-- The error raised by `requests.Response.raise_for_status()`. -/
structure UpstreamError where
  status : Nat
deriving DecidableEq, Repr

/-- An HTTP response from the lookup API: status code plus (for successful
responses) the decoded body. -/
structure HttpResponse where
  status : Nat
  body : PlayerInfo
deriving DecidableEq, Repr

/-- `fetch_player` (`src/app.py` 57-64), as a function of the HTTP response it
receives: status 403 or 404 returns the empty dict (`none`);
`raise_for_status()` raises for any other 4xx/5xx status; otherwise the JSON
body is returned. -/
def fetch_player (resp : HttpResponse) : Except UpstreamError (Option PlayerInfo) :=
  if resp.status = 403 ∨ resp.status = 404 then .ok none
  else if 400 ≤ resp.status ∧ resp.status ≤ 599 then .error ⟨resp.status⟩
  else .ok (some resp.body)

-- ## The `@st.cache_data(ttl=600)` memoization of `fetch_player`

/-- Cache state of the memoized `fetch_player`: per identifier, the cached
return value and the time it was stored. -/
abbrev CacheState := PyDict (Option PlayerInfo × Nat)

/-- Result of one call to the memoized `fetch_player`: the returned value, the
cache state afterwards, and whether a network request was issued. -/
structure CachedCall where
  result : Option PlayerInfo
  cache : CacheState
  networked : Bool
deriving DecidableEq, Repr

/-- One call of the memoized `fetch_player` at time `now` (seconds).
`net` is the value the un-memoized body would return from the network.
A stored value younger than the 600-second TTL is returned without a network
request; otherwise the body runs and its value is stored with timestamp `now`. -/
def fetch_player_cached (cache : CacheState) (tag : Str) (now : Nat)
    (net : Option PlayerInfo) : CachedCall :=
  match dictGet cache tag with
  | some (v, t0) =>
    if now - t0 < 600 then ⟨v, cache, false⟩
    else ⟨net, dictSet cache tag (net, now), true⟩
  | none => ⟨net, dictSet cache tag (net, now), true⟩

-- ## Search mode (`src/app.py` 137-143)

/-- `fetch_player(tag).get("name", "")`: the display name, or the empty string
when the lookup returned the empty dict. -/
def nameOf (fetchRes : Str → Option PlayerInfo) (tag : Str) : Str :=
  match fetchRes tag with
  | some info => info.name
  | none => []

/-- The spec-side matching predicate: `q` is a case-insensitive substring of
`s` (stated from the spec's words, for comparison with the code's filter). -/
def ciSubstr (q s : Str) : Prop := pyLower q <:+: pyLower s

instance (q s : Str) : Decidable (ciSubstr q s) := by
  unfold ciSubstr
  exact List.decidableInfix _ _

/-- The search-mode filter loop: `q = raw.strip().lower()`; an entry is kept
when `q in tag.lower() or q in name.lower()`, and each hit carries
`(tag, name, entry)`. -/
def search_hits (rawQuery : Str) (entries : Dict)
    (fetchRes : Str → Option PlayerInfo) : List (Str × Str × Entry) :=
  let q := pyLower (pyStrip rawQuery)
  (entries.filter (fun te =>
      decide (q <:+: pyLower te.1) || decide (q <:+: pyLower (nameOf fetchRes te.1)))).map
    (fun te => (te.1, nameOf fetchRes te.1, te.2))

-- ## Session state and the mutation flows

/-- The mutable session: the in-memory entry mapping plus the backing sheet. -/
structure AppState where
  entries : Dict
  sheet : Sheet
deriving DecidableEq, Repr

/-- Outcome of the add-form submission (`src/app.py` 211-224). -/
inductive AddOutcome where
  | errRequired : AddOutcome
  | errInvalidTag : AddOutcome
  | added : Str → AddOutcome
deriving DecidableEq, Repr

/-- Result of the add-form submission: the session state afterwards, the
inline outcome, and whether `save_entries_to_sheet` was called. -/
structure SubmitResult where
  state : AppState
  outcome : AddOutcome
  calledSaveAll : Bool
deriving DecidableEq, Repr

/-- The add-form submit handler (`src/app.py` 211-224): normalize the raw tag,
fetch the player, then validate (`if not tag or not reasons`, `elif not info`)
and on success insert the entry and save. -/
def add_submit (st : AppState) (raw : Str) (reasons : List Str) (note : Str)
    (fetchRes : Str → Option PlayerInfo) : SubmitResult :=
  let tag := normalize_tag raw
  let info := fetchRes tag
  if tag = [] ∨ reasons = [] then ⟨st, .errRequired, false⟩
  else if info = none then ⟨st, .errInvalidTag, false⟩
  else
    let entries := dictSet st.entries tag ⟨reasons, note⟩
    ⟨⟨entries, save_entries_to_sheet st.sheet entries⟩, .added tag, true⟩

/-- The delete handler (`src/app.py` 127-130 and 183-186):
`entries.pop(tag)` then `save_entries_to_sheet(entries)`. -/
def delete_entry (st : AppState) (tag : Str) : AppState :=
  let entries := dictPop st.entries tag
  ⟨entries, save_entries_to_sheet st.sheet entries⟩

/-- Result of rendering the create mode once. -/
structure CreateModeResult where
  state : AppState
  mutationControlsRendered : Bool
  calledSaveAll : Bool
  outcome : Option AddOutcome
deriving DecidableEq, Repr

/-- The create mode (`src/app.py` 191-224): `if pwd != PASSWORD: st.error(...)`
renders nothing else; on a matching password the add form is rendered and, if
submitted, handled by `add_submit`. -/
def create_mode (st : AppState) (password pwd : Str) (raw : Str) (reasons : List Str)
    (note : Str) (fetchRes : Str → Option PlayerInfo) (submitted : Bool) : CreateModeResult :=
  if pwd ≠ password then ⟨st, false, false, none⟩
  else if submitted then
    let r := add_submit st raw reasons note fetchRes
    ⟨r.state, true, r.calledSaveAll, some r.outcome⟩
  else ⟨st, true, false, none⟩

-- ## Helper lemmas about the string primitives

theorem isPySpace_pyUpperChar (c : Nat) : isPySpace (pyUpperChar c) = isPySpace c := by
  unfold pyUpperChar
  split
  · next h =>
    have h1 : isPySpace (c - 32) = false := by
      simp only [isPySpace, Bool.or_eq_false_iff, decide_eq_false_iff_not]
      omega
    have h2 : isPySpace c = false := by
      simp only [isPySpace, Bool.or_eq_false_iff, decide_eq_false_iff_not]
      omega
    rw [h1, h2]
  · rfl

theorem pyUpperChar_pyUpperChar (c : Nat) : pyUpperChar (pyUpperChar c) = pyUpperChar c := by
  unfold pyUpperChar
  split
  · next h =>
    have hn : ¬(97 ≤ c - 32 ∧ c - 32 ≤ 122) := by omega
    rw [if_neg hn]
  · rfl

theorem head?_dropWhile_false (p : α → Bool) (l : List α) :
    ∀ c, (l.dropWhile p).head? = some c → p c = false := by
  induction l with
  | nil => intro c h; simp [List.dropWhile] at h
  | cons a l ih =>
    intro c h
    by_cases hp : p a = true
    · rw [List.dropWhile_cons_of_pos hp] at h
      exact ih c h
    · rw [List.dropWhile_cons_of_neg hp] at h
      simp only [List.head?_cons, Option.some.injEq] at h
      subst h
      simpa using hp

theorem dropWhile_eq_self_of_head (p : α → Bool) (l : List α)
    (h : ∀ c, l.head? = some c → p c = false) : l.dropWhile p = l := by
  cases l with
  | nil => rfl
  | cons a l =>
    have ha : p a = false := h a rfl
    exact List.dropWhile_cons_of_neg (by simp [ha])

/-- `pyStrip` output has no trailing whitespace code point. -/
theorem pyStrip_getLast (s : Str) :
    ∀ c, (pyStrip s).getLast? = some c → isPySpace c = false := by
  intro c h
  unfold pyStrip at h
  rw [List.getLast?_reverse] at h
  exact head?_dropWhile_false _ _ c h

theorem pyStrip_fixed (t : Str) (hh : ∀ c, t.head? = some c → isPySpace c = false)
    (hl : ∀ c, t.getLast? = some c → isPySpace c = false) : pyStrip t = t := by
  unfold pyStrip
  rw [dropWhile_eq_self_of_head _ _ hh]
  rw [dropWhile_eq_self_of_head _ _ (fun c h => hl c (by rwa [List.head?_reverse] at h))]
  exact List.reverse_reverse t

theorem pyUpper_idem (s : Str) : pyUpper (pyUpper s) = pyUpper s := by
  unfold pyUpper
  rw [List.map_map]
  exact List.map_congr_left (fun a _ => pyUpperChar_pyUpperChar a)

theorem startsWithHash_normalize (raw : Str) :
    startsWithHash (normalize_tag raw) = true := by
  unfold normalize_tag
  by_cases h : startsWithHash (pyUpper (pyStrip raw)) = true
  · rw [if_pos h]; exact h
  · rw [if_neg h]; rfl

theorem normalize_tag_head (raw : Str) : (normalize_tag raw).head? = some 35 := by
  have h := startsWithHash_normalize raw
  cases hn : normalize_tag raw with
  | nil => rw [hn] at h; simp [startsWithHash] at h
  | cons c rest =>
    rw [hn] at h
    simp only [startsWithHash, beq_iff_eq] at h
    rw [h]
    rfl

theorem normalize_tag_ne_nil (raw : Str) : normalize_tag raw ≠ [] := by
  intro h
  have := normalize_tag_head raw
  rw [h] at this
  simp at this

theorem normalize_tag_getLast (raw : Str) :
    ∀ c, (normalize_tag raw).getLast? = some c → isPySpace c = false := by
  have key : ∀ c, (pyUpper (pyStrip raw)).getLast? = some c → isPySpace c = false := by
    intro c hc
    unfold pyUpper at hc
    rw [List.getLast?_map] at hc
    cases hg : (pyStrip raw).getLast? with
    | none => rw [hg] at hc; simp at hc
    | some c0 =>
      rw [hg] at hc
      simp only [Option.map_some', Option.some.injEq] at hc
      rw [← hc, isPySpace_pyUpperChar]
      exact pyStrip_getLast raw c0 hg
  intro c h
  unfold normalize_tag at h
  by_cases hsw : startsWithHash (pyUpper (pyStrip raw)) = true
  · rw [if_pos hsw] at h
    exact key c h
  · rw [if_neg hsw] at h
    cases hu : pyUpper (pyStrip raw) with
    | nil =>
      rw [hu] at h
      simp only [List.getLast?_singleton, Option.some.injEq] at h
      rw [← h]
      decide
    | cons d u =>
      rw [hu, List.getLast?_cons_cons] at h
      exact key c (by rw [hu]; exact h)

theorem pyStrip_normalize (raw : Str) : pyStrip (normalize_tag raw) = normalize_tag raw :=
  pyStrip_fixed _
    (fun c h => by
      rw [normalize_tag_head raw] at h
      cases h
      decide)
    (normalize_tag_getLast raw)

theorem pyUpper_normalize (raw : Str) : pyUpper (normalize_tag raw) = normalize_tag raw := by
  unfold normalize_tag
  by_cases hsw : startsWithHash (pyUpper (pyStrip raw)) = true
  · rw [if_pos hsw]
    exact pyUpper_idem _
  · rw [if_neg hsw]
    show pyUpperChar 35 :: pyUpper (pyUpper (pyStrip raw)) = 35 :: pyUpper (pyStrip raw)
    rw [pyUpper_idem]
    rfl

theorem normalize_tag_fixed (t : Str) (h1 : pyStrip t = t) (h2 : pyUpper t = t)
    (h3 : startsWithHash t = true) : normalize_tag t = t := by
  unfold normalize_tag
  rw [h1, h2, if_pos h3]

-- ## Dict lemmas

theorem dictGet_dictSet_self {β : Type} (d : PyDict β) (k : Str) (v : β) :
    dictGet (dictSet d k v) k = some v := by
  induction d with
  | nil => simp [dictSet, dictGet]
  | cons kv rest ih =>
    obtain ⟨k', v'⟩ := kv
    by_cases h : k' = k
    · simp [dictSet, dictGet, h]
    · simp [dictSet, dictGet, h, ih]

theorem dictGet_eq_none_iff {β : Type} (d : PyDict β) (k : Str) :
    dictGet d k = none ↔ k ∉ d.map Prod.fst := by
  induction d with
  | nil => simp [dictGet]
  | cons kv rest ih =>
    obtain ⟨k', v'⟩ := kv
    by_cases h : k' = k
    · simp [dictGet, h]
    · have hne : ¬ k = k' := fun he => h he.symm
      simp only [dictGet, if_neg h, List.map_cons, List.mem_cons, ih]
      tauto

theorem dictSet_append {β : Type} (d : PyDict β) (k : Str) (v : β)
    (h : k ∉ d.map Prod.fst) : dictSet d k v = d ++ [(k, v)] := by
  induction d with
  | nil => rfl
  | cons kv rest ih =>
    obtain ⟨k', v'⟩ := kv
    simp only [List.map_cons, List.mem_cons] at h
    push_neg at h
    simp [dictSet, h.1.symm, ih h.2]

theorem dictGet_dictPop_self {β : Type} (d : PyDict β) (k : Str)
    (h : (d.map Prod.fst).Nodup) : dictGet (dictPop d k) k = none := by
  induction d with
  | nil => simp [dictPop, dictGet]
  | cons kv rest ih =>
    obtain ⟨k', v'⟩ := kv
    simp only [List.map_cons, List.nodup_cons] at h
    by_cases hk : k' = k
    · subst hk
      simp only [dictPop, if_pos rfl]
      rw [dictGet_eq_none_iff]
      exact h.1
    · simp [dictPop, hk, dictGet, ih h.2]

/-- Folding `dictSet` over pairs with fresh, pairwise-distinct keys just
appends them in order. -/
theorem foldl_dictSet_eq {β : Type} (l acc : PyDict β)
    (h : ((acc.map Prod.fst) ++ (l.map Prod.fst)).Nodup) :
    l.foldl (fun d te => dictSet d te.1 te.2) acc = acc ++ l := by
  induction l generalizing acc with
  | nil => simp
  | cons kv rest ih =>
    obtain ⟨k, v⟩ := kv
    simp only [List.foldl_cons]
    have hk : k ∉ acc.map Prod.fst := by
      intro hmem
      rcases List.nodup_append.mp h with ⟨_, _, hdisj⟩
      exact hdisj hmem (by simp)
    rw [dictSet_append acc k v hk]
    rw [ih (acc ++ [(k, v)]) (by simpa [List.append_assoc] using h)]
    simp

-- ## Round-trip lemmas

theorem parseReasons_joinComma (rs : List Str)
    (hc : ∀ r ∈ rs, (44 : Nat) ∉ r) (hne : rs ≠ [[]]) :
    parseReasons (joinComma rs) = rs := by
  rcases eq_or_ne rs [] with h | h
  · subst h; rfl
  · have hsplit : (joinComma rs).splitOn 44 = rs := by
      unfold joinComma
      exact List.splitOn_intercalate rs 44 hc h
    unfold parseReasons
    by_cases hj : joinComma rs = []
    · rw [hj] at hsplit
      exact absurd hsplit.symm (by simpa using hne)
    · rw [if_neg hj, hsplit]

theorem dictGet_dictSet_ne {β : Type} (d : PyDict β) (k k' : Str) (v : β)
    (h : k ≠ k') : dictGet (dictSet d k v) k' = dictGet d k' := by
  induction d with
  | nil => simp [dictSet, dictGet, h]
  | cons kv rest ih =>
    obtain ⟨k0, v0⟩ := kv
    by_cases h0 : k0 = k
    · subst h0
      simp [dictSet, dictGet, h]
    · simp [dictSet, dictGet, h0, ih]

theorem dictGet_foldl_dictSet_none {β γ : Type} (f : γ → Str) (g : γ → β)
    (l : List γ) (acc : PyDict β) (tag : Str)
    (h1 : dictGet acc tag = none) (h2 : ∀ x ∈ l, f x ≠ tag) :
    dictGet (l.foldl (fun d x => dictSet d (f x) (g x)) acc) tag = none := by
  induction l generalizing acc with
  | nil => simpa using h1
  | cons x rest ih =>
    simp only [List.foldl_cons]
    refine ih _ ?_ (fun y hy => h2 y (by simp [hy]))
    rw [dictGet_dictSet_ne _ _ _ _ (h2 x (by simp))]
    exact h1

theorem rows_save (s : Sheet) (entries : Dict) :
    (save_entries_to_sheet s entries).rows = save_rows entries := by
  simp [save_entries_to_sheet, sheet_update, sheet_clear]

/-- Loading a sheet whose header is the canonical `tag,reasons,note` header
processes each body row positionally. -/
theorem load_header (body : List Row) :
    load_entries_from_sheet (headerRow :: body) =
      some (body.foldl
        (fun d r => dictSet d (r.getD 0 []) ⟨parseReasons (r.getD 1 []), r.getD 2 []⟩) []) :=
  rfl

/-- `loadAll` after `saveAll` parses each written row back to the entry it
came from, provided reasons are comma-free and not the singleton `[""]`. -/
theorem load_save_rows (entries : Dict)
    (hnd : (entries.map Prod.fst).Nodup)
    (hc : ∀ te ∈ entries, ∀ r ∈ te.2.reasons, (44 : Nat) ∉ r)
    (hne : ∀ te ∈ entries, te.2.reasons ≠ [[]]) :
    load_entries_from_sheet (save_rows entries) = some entries := by
  have h0 : save_rows entries =
      headerRow :: entries.map (fun te => [te.1, joinComma te.2.reasons, te.2.note]) := rfl
  rw [h0, load_header, List.foldl_map]
  have h1 : entries.foldl
      (fun d te => dictSet d te.1 ⟨parseReasons (joinComma te.2.reasons), te.2.note⟩) ([] : Dict) =
      (entries.map (fun te => (te.1, Entry.mk (parseReasons (joinComma te.2.reasons)) te.2.note))).foldl
        (fun d te => dictSet d te.1 te.2) ([] : Dict) := by
    rw [List.foldl_map]
  have h2 : (entries.map
      (fun te => (te.1, Entry.mk (parseReasons (joinComma te.2.reasons)) te.2.note))).foldl
        (fun d te => dictSet d te.1 te.2) ([] : Dict) = entries := by
    rw [foldl_dictSet_eq]
    · conv_rhs => rw [← List.map_id entries]
      refine List.map_congr_left (fun te hte => ?_)
      rw [parseReasons_joinComma te.2.reasons (hc te hte) (hne te hte)]
      rfl
    · simp only [List.map_nil, List.nil_append, List.map_map]
      exact hnd
  rw [show (fun (d : Dict) (te : Str × Entry) =>
      dictSet d ([te.1, joinComma te.2.reasons, te.2.note].getD 0 [])
        ⟨parseReasons ([te.1, joinComma te.2.reasons, te.2.note].getD 1 []),
         [te.1, joinComma te.2.reasons, te.2.note].getD 2 []⟩) =
      (fun (d : Dict) (te : Str × Entry) =>
        dictSet d te.1 ⟨parseReasons (joinComma te.2.reasons), te.2.note⟩) from rfl]
  rw [h1, h2]

/-- A non-whitespace first code point survives `pyStrip` as the first code
point of the result. -/
theorem pyStrip_head_of_head (c : Nat) (t : List Nat) (hc : isPySpace c = false) :
    (pyStrip (c :: t)).head? = some c := by
  unfold pyStrip
  rw [dropWhile_eq_self_of_head isPySpace (c :: t)
    (fun d hd => by
      simp only [List.head?_cons, Option.some.injEq] at hd
      rwa [← hd])]
  obtain ⟨pre, hpre⟩ :=
    (List.dropWhile_suffix (l := (c :: t).reverse) isPySpace :
      (c :: t).reverse.dropWhile isPySpace <:+ (c :: t).reverse)
  have hrne : (c :: t).reverse.dropWhile isPySpace ≠ [] := by
    intro h0
    have hall := List.dropWhile_eq_nil_iff.mp h0
    have : isPySpace c = true := hall c (by simp)
    rw [this] at hc
    cases hc
  have hrev : ((c :: t).reverse.dropWhile isPySpace).reverse ++ pre.reverse = c :: t := by
    have h2 := congrArg List.reverse hpre
    simpa [List.reverse_append] using h2
  cases hr2 : ((c :: t).reverse.dropWhile isPySpace).reverse with
  | nil =>
    exact absurd (by simpa using congrArg List.reverse hr2) hrne
  | cons b bs =>
    rw [hr2] at hrev
    have hb : b = c := by
      have := congrArg List.head? hrev
      simpa using this
    simp [hb]

-- ## Claim theorems

/-- C6: `normalize_tag` is idempotent; it is the identity on inputs that are
already whitespace-trimmed, already uppercase and already `#`-prefixed; and it
never prepends a second `#` to an input that already starts with one. -/
theorem claim_C6_normalize_idempotent :
    (∀ x : Str, normalize_tag (normalize_tag x) = normalize_tag x) ∧
    (∀ x : Str, pyStrip x = x → pyUpper x = x → startsWithHash x = true →
      normalize_tag x = x) ∧
    (∀ x : Str, startsWithHash x = true → normalize_tag x = pyUpper (pyStrip x)) := by
  refine ⟨?_, ?_, ?_⟩
  · intro x
    exact normalize_tag_fixed _ (pyStrip_normalize x) (pyUpper_normalize x)
      (startsWithHash_normalize x)
  · intro x h1 h2 h3
    exact normalize_tag_fixed x h1 h2 h3
  · intro x hx
    cases x with
    | nil => simp [startsWithHash] at hx
    | cons a t =>
      have ha : a = 35 := by simpa [startsWithHash] using hx
      subst ha
      have hh : (pyStrip (35 :: t)).head? = some 35 :=
        pyStrip_head_of_head 35 t (by decide)
      have hsw : startsWithHash (pyUpper (pyStrip (35 :: t))) = true := by
        cases hs : pyStrip (35 :: t) with
        | nil => rw [hs] at hh; cases hh
        | cons b bs =>
          rw [hs] at hh
          simp only [List.head?_cons, Option.some.injEq] at hh
          have h35 : pyUpperChar 35 = 35 := by decide
          simp [pyUpper, startsWithHash, hh, h35]
      unfold normalize_tag
      rw [if_pos hsw]

/-- C6 witness: the theorem applied at concrete inputs, its hypotheses
discharged by evaluation. -/
theorem claim_C6_witness :
    normalize_tag (normalize_tag (pys " abc")) = normalize_tag (pys " abc") ∧
    (pyStrip (pys "#ABC") = pys "#ABC" ∧ pyUpper (pys "#ABC") = pys "#ABC" ∧
      startsWithHash (pys "#ABC") = true ∧ normalize_tag (pys "#ABC") = pys "#ABC") ∧
    (startsWithHash (pys "#ab") = true ∧
      normalize_tag (pys "#ab") = pyUpper (pyStrip (pys "#ab"))) :=
  ⟨claim_C6_normalize_idempotent.1 (pys " abc"),
   ⟨by decide, by decide, by decide,
    claim_C6_normalize_idempotent.2.1 (pys "#ABC") (by decide) (by decide) (by decide)⟩,
   ⟨by decide, claim_C6_normalize_idempotent.2.2 (pys "#ab") (by decide)⟩⟩

/-- C10 (implicit): `normalize_tag` always returns a non-empty string starting
with `#`; hence in the add-form submit handler the `errRequired` branch fires
exactly when no reasons are selected (the tag-empty disjunct is unreachable),
and with reasons selected an empty raw identifier is rejected exactly when the
lookup of its normalization `"#"` returns the empty result. -/
theorem claim_C10_tag_guard_unreachable :
    (∀ raw : Str, normalize_tag raw ≠ [] ∧ (normalize_tag raw).head? = some 35) ∧
    (∀ (st : AppState) (raw : Str) (reasons : List Str) (note : Str)
        (fetchRes : Str → Option PlayerInfo),
      (add_submit st raw reasons note fetchRes).outcome = .errRequired ↔ reasons = []) ∧
    (∀ (st : AppState) (reasons : List Str) (note : Str)
        (fetchRes : Str → Option PlayerInfo), reasons ≠ [] →
      ((add_submit st (pys "") reasons note fetchRes).outcome = .errInvalidTag ↔
        fetchRes (pys "#") = none)) := by
  refine ⟨fun raw => ⟨normalize_tag_ne_nil raw, normalize_tag_head raw⟩, ?_, ?_⟩
  · intro st raw reasons note fetchRes
    simp only [add_submit]
    by_cases hr : reasons = []
    · rw [if_pos (Or.inr hr)]
      simpa using hr
    · rw [if_neg (by push_neg; exact ⟨normalize_tag_ne_nil raw, hr⟩)]
      by_cases hi : fetchRes (normalize_tag raw) = none
      · rw [if_pos hi]; simpa using hr
      · rw [if_neg hi]; simpa using hr
  · intro st reasons note fetchRes hr
    have hn : normalize_tag (pys "") = pys "#" := by decide
    simp only [add_submit, hn]
    rw [if_neg (by push_neg; exact ⟨by decide, hr⟩)]
    by_cases hi : fetchRes (pys "#") = none
    · rw [if_pos hi]; simpa using hi
    · rw [if_neg hi]; simpa using hi

/-- C10 witness: concrete instances of the three clauses. -/
theorem claim_C10_witness :
    (normalize_tag (pys " ") ≠ [] ∧ (normalize_tag (pys " ")).head? = some 35) ∧
    ((add_submit ⟨[], ⟨[]⟩⟩ (pys "#ABC") [] [] (fun _ => none)).outcome =
        .errRequired ↔ ([] : List Str) = []) ∧
    ((add_submit ⟨[], ⟨[]⟩⟩ (pys "") [pys "神"] [] (fun _ => none)).outcome =
        .errInvalidTag ↔ (fun _ => (none : Option PlayerInfo)) (pys "#") = none) :=
  ⟨claim_C10_tag_guard_unreachable.1 (pys " "),
   claim_C10_tag_guard_unreachable.2.1 ⟨[], ⟨[]⟩⟩ (pys "#ABC") [] [] (fun _ => none),
   claim_C10_tag_guard_unreachable.2.2 ⟨[], ⟨[]⟩⟩ [pys "神"] [] (fun _ => none)
     (by decide)⟩

/-- C2: a lookup response with status 403 or 404 yields the empty result
without raising; any other 4xx/5xx status (the statuses
`raise_for_status()` treats as errors, e.g. 500) raises `UpstreamError`. -/
theorem claim_C2_fetch_status (resp : HttpResponse) :
    (resp.status = 403 ∨ resp.status = 404 → fetch_player resp = .ok none) ∧
    (400 ≤ resp.status → resp.status ≤ 599 → resp.status ≠ 403 → resp.status ≠ 404 →
      fetch_player resp = .error ⟨resp.status⟩) := by
  constructor
  · intro h
    unfold fetch_player
    rw [if_pos h]
  · intro h1 h2 h3 h4
    unfold fetch_player
    rw [if_neg (by tauto), if_pos ⟨h1, h2⟩]

/-- C2 witness: a 404 response returns the empty result, a 500 response
raises. -/
theorem claim_C2_witness :
    fetch_player ⟨404, ⟨pys "#ABC", pys "Taro", 10, 1, 2, 3⟩⟩ = .ok none ∧
    fetch_player ⟨500, ⟨pys "#ABC", pys "Taro", 10, 1, 2, 3⟩⟩ = .error ⟨500⟩ :=
  ⟨(claim_C2_fetch_status _).1 (Or.inr rfl),
   (claim_C2_fetch_status _).2 (by decide) (by decide) (by decide) (by decide)⟩

/-- C3: an add-form submission with no reasons selected, or whose identifier
does not resolve, is rejected with an inline error, does not call
`save_entries_to_sheet`, and leaves the session state (in-memory mapping and
backing sheet) unchanged. -/
theorem claim_C3_create_rejects_without_save (st : AppState) (raw : Str)
    (reasons : List Str) (note : Str) (fetchRes : Str → Option PlayerInfo)
    (h : reasons = [] ∨ fetchRes (normalize_tag raw) = none) :
    (add_submit st raw reasons note fetchRes).state = st ∧
    (add_submit st raw reasons note fetchRes).calledSaveAll = false ∧
    ((add_submit st raw reasons note fetchRes).outcome = .errRequired ∨
      (add_submit st raw reasons note fetchRes).outcome = .errInvalidTag) := by
  simp only [add_submit]
  by_cases hr : reasons = []
  · rw [if_pos (Or.inr hr)]
    exact ⟨rfl, rfl, Or.inl rfl⟩
  · have hi : fetchRes (normalize_tag raw) = none := h.resolve_left hr
    rw [if_neg (by push_neg; exact ⟨normalize_tag_ne_nil raw, hr⟩), if_pos hi]
    exact ⟨rfl, rfl, Or.inr rfl⟩

/-- C3 witness: both invalid submissions at a concrete state leave it
untouched. -/
theorem claim_C3_witness :
    ((add_submit ⟨[], ⟨[]⟩⟩ (pys "#ABC") [] [] (fun _ => none)).state = ⟨[], ⟨[]⟩⟩ ∧
      (add_submit ⟨[], ⟨[]⟩⟩ (pys "#ABC") [] [] (fun _ => none)).calledSaveAll = false ∧
      ((add_submit ⟨[], ⟨[]⟩⟩ (pys "#ABC") [] [] (fun _ => none)).outcome = .errRequired ∨
        (add_submit ⟨[], ⟨[]⟩⟩ (pys "#ABC") [] [] (fun _ => none)).outcome =
          .errInvalidTag)) :=
  claim_C3_create_rejects_without_save ⟨[], ⟨[]⟩⟩ (pys "#ABC") [] [] (fun _ => none)
    (Or.inl rfl)

/-- C9: with a non-matching password the create mode is inert: no mutation
control is rendered, `save_entries_to_sheet` is not called, and neither the
in-memory mapping nor the backing sheet changes. -/
theorem claim_C9_create_mode_gated (st : AppState) (password pwd raw : Str)
    (reasons : List Str) (note : Str) (fetchRes : Str → Option PlayerInfo)
    (submitted : Bool) (h : pwd ≠ password) :
    create_mode st password pwd raw reasons note fetchRes submitted =
      ⟨st, false, false, none⟩ := by
  unfold create_mode
  rw [if_pos h]

/-- C9 witness: a wrong password at a concrete state, with the form
submitted, changes nothing. -/
theorem claim_C9_witness :
    create_mode ⟨[(pys "#ABC", ⟨[pys "神"], []⟩)], ⟨[]⟩⟩ (pys "Debu") (pys "debu")
        (pys "#XYZ") [pys "神"] [] (fun _ => none) true =
      ⟨⟨[(pys "#ABC", ⟨[pys "神"], []⟩)], ⟨[]⟩⟩, false, false, none⟩ :=
  claim_C9_create_mode_gated ⟨[(pys "#ABC", ⟨[pys "神"], []⟩)], ⟨[]⟩⟩ (pys "Debu")
    (pys "debu") (pys "#XYZ") [pys "神"] [] (fun _ => none) true (by decide)

/-- C8: deleting an identifier present in the session removes it from the
in-memory mapping, the sheet is overwritten with the save of the resulting
mapping, and the identifier is absent from the next load of that sheet. -/
theorem claim_C8_delete_removes (st : AppState) (tag : Str)
    (hnd : (st.entries.map Prod.fst).Nodup)
    (_hmem : dictGet st.entries tag ≠ none) :
    dictGet (delete_entry st tag).entries tag = none ∧
    (delete_entry st tag).sheet =
      save_entries_to_sheet st.sheet (delete_entry st tag).entries ∧
    ∃ d, load_entries_from_sheet (delete_entry st tag).sheet.rows = some d ∧
      dictGet d tag = none := by
  have hgone : dictGet (dictPop st.entries tag) tag = none :=
    dictGet_dictPop_self st.entries tag hnd
  refine ⟨hgone, rfl, ?_⟩
  have hrows : (delete_entry st tag).sheet.rows = save_rows (dictPop st.entries tag) :=
    rows_save st.sheet (dictPop st.entries tag)
  rw [hrows]
  refine ⟨_, load_header _, ?_⟩
  refine dictGet_foldl_dictSet_none
    (fun (r : Row) => r.getD 0 [])
    (fun (r : Row) => Entry.mk (parseReasons (r.getD 1 [])) (r.getD 2 []))
    _ [] tag rfl ?_
  intro r hr
  obtain ⟨te, hte, rfl⟩ := List.mem_map.mp hr
  show te.1 ≠ tag
  intro hEq
  have hkeys : tag ∉ (dictPop st.entries tag).map Prod.fst :=
    (dictGet_eq_none_iff _ _).mp hgone
  have hmm : te.1 ∈ (dictPop st.entries tag).map Prod.fst :=
    List.mem_map_of_mem Prod.fst hte
  rw [hEq] at hmm
  exact hkeys hmm

/-- C8 witness: deleting the only entry of a concrete session really empties
the mapping and the reloaded sheet. -/
theorem claim_C8_witness :
    dictGet (delete_entry ⟨[(pys "#ABC", ⟨[pys "神"], []⟩)], ⟨[]⟩⟩ (pys "#ABC")).entries
        (pys "#ABC") = none ∧
    (delete_entry ⟨[(pys "#ABC", ⟨[pys "神"], []⟩)], ⟨[]⟩⟩ (pys "#ABC")).sheet =
      save_entries_to_sheet (⟨[]⟩ : Sheet)
        (delete_entry ⟨[(pys "#ABC", ⟨[pys "神"], []⟩)], ⟨[]⟩⟩ (pys "#ABC")).entries ∧
    ∃ d, load_entries_from_sheet
        (delete_entry ⟨[(pys "#ABC", ⟨[pys "神"], []⟩)], ⟨[]⟩⟩ (pys "#ABC")).sheet.rows =
        some d ∧ dictGet d (pys "#ABC") = none :=
  claim_C8_delete_removes ⟨[(pys "#ABC", ⟨[pys "神"], []⟩)], ⟨[]⟩⟩ (pys "#ABC")
    (by decide) (by decide)

/-- C7: `save_entries_to_sheet` writes exactly the `tag,reasons,note` header
followed by one row per entry with comma-joined reasons, fully replacing the
previous sheet contents; `load_entries_from_sheet` parses each reasons cell by
splitting on comma, the empty cell giving the empty list. -/
theorem claim_C7_serialization_format :
    (∀ (s : Sheet) (entries : Dict),
      (save_entries_to_sheet s entries).rows =
        headerRow :: entries.map (fun te => [te.1, joinComma te.2.reasons, te.2.note]) ∧
      (save_entries_to_sheet s entries).rows.length = entries.length + 1 ∧
      save_entries_to_sheet s entries = save_entries_to_sheet ⟨[]⟩ entries) ∧
    (∀ body : List (Str × Str × Str),
      load_entries_from_sheet (headerRow :: body.map (fun r => [r.1, r.2.1, r.2.2])) =
        some (body.foldl (fun d r =>
          dictSet d r.1 ⟨if r.2.1 = [] then [] else r.2.1.splitOn 44, r.2.2⟩) [])) := by
  constructor
  · intro s entries
    refine ⟨rows_save s entries, ?_, ?_⟩
    · rw [rows_save]
      simp [save_rows]
    · unfold save_entries_to_sheet sheet_update sheet_clear
      simp
  · intro body
    rw [load_header, List.foldl_map]
    rfl

/-- C1 counterexample: the reasons list `[""]` has no embedded comma and keys
are unique, yet the reload of the save is not the original mapping (the
comma-join of `[""]` is the empty cell, which reloads as `[]`). -/
theorem claim_C1_counterexample :
    ((([(pys "#A", Entry.mk [[]] [])] : Dict).map Prod.fst).Nodup ∧
      ∀ te ∈ ([(pys "#A", Entry.mk [[]] [])] : Dict), ∀ r ∈ te.2.reasons,
        (44 : Nat) ∉ r) ∧
    load_entries_from_sheet
        (save_entries_to_sheet ⟨[]⟩ [(pys "#A", Entry.mk [[]] [])]).rows ≠
      some [(pys "#A", Entry.mk [[]] [])] := by
  decide

/-- C1 (amended): for a mapping with unique keys whose reasons values contain
no embedded comma and whose reasons lists are not the singleton `[""]`, saving
and reloading returns the mapping unchanged. -/
theorem claim_C1_save_load_roundtrip (entries : Dict) (s : Sheet)
    (hnd : (entries.map Prod.fst).Nodup)
    (hc : ∀ te ∈ entries, ∀ r ∈ te.2.reasons, (44 : Nat) ∉ r)
    (hne : ∀ te ∈ entries, te.2.reasons ≠ [[]]) :
    load_entries_from_sheet (save_entries_to_sheet s entries).rows = some entries := by
  rw [rows_save]
  exact load_save_rows entries hnd hc hne

/-- C1 witness: the spec's two-entry mapping produces exactly 3 rows and
reloads to itself. -/
theorem claim_C1_witness :
    (save_entries_to_sheet ⟨[]⟩
        [(pys "#ABC", ⟨[pys "神"], []⟩),
         (pys "#XYZ", ⟨[pys "デブ", pys "神"], pys "watch"⟩)]).rows.length = 3 ∧
    load_entries_from_sheet (save_entries_to_sheet ⟨[]⟩
        [(pys "#ABC", ⟨[pys "神"], []⟩),
         (pys "#XYZ", ⟨[pys "デブ", pys "神"], pys "watch"⟩)]).rows =
      some [(pys "#ABC", ⟨[pys "神"], []⟩),
            (pys "#XYZ", ⟨[pys "デブ", pys "神"], pys "watch"⟩)] :=
  ⟨by decide,
   claim_C1_save_load_roundtrip
     [(pys "#ABC", ⟨[pys "神"], []⟩), (pys "#XYZ", ⟨[pys "デブ", pys "神"], pys "watch"⟩)]
     ⟨[]⟩ (by decide) (by decide) (by decide)⟩

/-- C4: two memoized lookups of the same identifier whose times are within the
600-second TTL issue at most one network request between them, and whenever
the second does not go to the network it returns the cached snapshot; a lookup
made at or after the expiry of the stored entry issues a new network
request. -/
theorem claim_C4_cache_ttl :
    (∀ (cache : CacheState) (tag : Str) (t1 t2 : Nat) (net1 net2 : Option PlayerInfo),
      t1 ≤ t2 → t2 - t1 < 600 →
      (fetch_player_cached cache tag t1 net1).networked.toNat +
        (fetch_player_cached (fetch_player_cached cache tag t1 net1).cache
          tag t2 net2).networked.toNat ≤ 1 ∧
      ((fetch_player_cached (fetch_player_cached cache tag t1 net1).cache
          tag t2 net2).networked = false →
        ∃ v t0,
          dictGet (fetch_player_cached cache tag t1 net1).cache tag = some (v, t0) ∧
          (fetch_player_cached (fetch_player_cached cache tag t1 net1).cache
            tag t2 net2).result = v)) ∧
    (∀ (cache : CacheState) (tag : Str) (now : Nat) (net v : Option PlayerInfo)
        (t0 : Nat),
      dictGet cache tag = some (v, t0) → 600 ≤ now - t0 →
      (fetch_player_cached cache tag now net).networked = true) := by
  constructor
  · intro cache tag t1 t2 net1 net2 h12 hlt
    cases hg : dictGet cache tag with
    | some vt =>
      obtain ⟨v, t0⟩ := vt
      by_cases hfresh : t1 - t0 < 600
      · have hc1 : fetch_player_cached cache tag t1 net1 = ⟨v, cache, false⟩ := by
          simp [fetch_player_cached, hg, hfresh]
        rw [hc1]
        constructor
        · have hb : ∀ b : Bool, b.toNat ≤ 1 := by decide
          simpa using hb _
        · intro hnn
          by_cases h2 : t2 - t0 < 600
          · have hc2 : fetch_player_cached cache tag t2 net2 = ⟨v, cache, false⟩ := by
              simp [fetch_player_cached, hg, h2]
            rw [hc2]
            exact ⟨v, t0, hg, rfl⟩
          · have hc2 : fetch_player_cached cache tag t2 net2 =
                ⟨net2, dictSet cache tag (net2, t2), true⟩ := by
              simp [fetch_player_cached, hg, h2]
            rw [hc2] at hnn
            cases hnn
      · have hc1 : fetch_player_cached cache tag t1 net1 =
            ⟨net1, dictSet cache tag (net1, t1), true⟩ := by
          simp [fetch_player_cached, hg, hfresh]
        rw [hc1]
        have hg2 : dictGet (dictSet cache tag (net1, t1)) tag = some (net1, t1) :=
          dictGet_dictSet_self cache tag (net1, t1)
        have hc2 : fetch_player_cached (dictSet cache tag (net1, t1)) tag t2 net2 =
            ⟨net1, dictSet cache tag (net1, t1), false⟩ := by
          simp [fetch_player_cached, hg2, hlt]
        rw [hc2]
        exact ⟨by simp, fun _ => ⟨net1, t1, hg2, rfl⟩⟩
    | none =>
      have hc1 : fetch_player_cached cache tag t1 net1 =
          ⟨net1, dictSet cache tag (net1, t1), true⟩ := by
        simp [fetch_player_cached, hg]
      rw [hc1]
      have hg2 : dictGet (dictSet cache tag (net1, t1)) tag = some (net1, t1) :=
        dictGet_dictSet_self cache tag (net1, t1)
      have hc2 : fetch_player_cached (dictSet cache tag (net1, t1)) tag t2 net2 =
          ⟨net1, dictSet cache tag (net1, t1), false⟩ := by
        simp [fetch_player_cached, hg2, hlt]
      rw [hc2]
      exact ⟨by simp, fun _ => ⟨net1, t1, hg2, rfl⟩⟩
  · intro cache tag now net v t0 hg hexp
    have hstale : ¬ now - t0 < 600 := by omega
    simp [fetch_player_cached, hg, hstale]

/-- C4 witness: a concrete pair of calls 10 seconds apart makes one network
request, and a call 600 seconds after the stored entry goes to the network. -/
theorem claim_C4_witness :
    ((fetch_player_cached [] (pys "#ABC") 0 none).networked.toNat +
        (fetch_player_cached (fetch_player_cached [] (pys "#ABC") 0 none).cache
          (pys "#ABC") 10 none).networked.toNat ≤ 1) ∧
    (fetch_player_cached [(pys "#ABC", (none, 0))] (pys "#ABC") 600 none).networked =
      true :=
  ⟨(claim_C4_cache_ttl.1 [] (pys "#ABC") 0 10 none none (by decide) (by decide)).1,
   claim_C4_cache_ttl.2 [(pys "#ABC", (none, 0))] (pys "#ABC") 600 none none 0
     (by decide) (by decide)⟩

/-- C5 counterexample: the query `" xyz"` (with leading whitespace) is not a
case-insensitive substring of the identifier `#XYZ123` or of its (empty)
display name, yet the entry is in the search result set, because the code
strips the query before matching. -/
theorem claim_C5_counterexample :
    (pys "#XYZ123", ([] : Str), Entry.mk [pys "神"] []) ∈
        search_hits (pys " xyz") [(pys "#XYZ123", Entry.mk [pys "神"] [])]
          (fun _ => none) ∧
    ¬ (ciSubstr (pys " xyz") (pys "#XYZ123") ∨
        ciSubstr (pys " xyz") (nameOf (fun _ => none) (pys "#XYZ123"))) := by
  decide

/-- C5 (amended): an entry is in the search result set exactly when the query,
first trimmed of surrounding whitespace, is a case-insensitive substring of
the entry's identifier or of its enriched display name (each hit carrying that
display name). -/
theorem claim_C5_search_match (rawQ : Str) (entries : Dict)
    (fetchRes : Str → Option PlayerInfo) (tag name : Str) (e : Entry) :
    (tag, name, e) ∈ search_hits rawQ entries fetchRes ↔
      ((tag, e) ∈ entries ∧ name = nameOf fetchRes tag ∧
        (ciSubstr (pyStrip rawQ) tag ∨ ciSubstr (pyStrip rawQ) (nameOf fetchRes tag))) := by
  unfold search_hits ciSubstr
  simp only [List.mem_map, List.mem_filter, Bool.or_eq_true, decide_eq_true_eq,
    Prod.mk.injEq]
  constructor
  · rintro ⟨te, ⟨hmem, hpass⟩, h1, h2, h3⟩
    subst h1
    subst h2
    subst h3
    exact ⟨by simpa using hmem, rfl, hpass⟩
  · rintro ⟨hmem, hname, hmatch⟩
    exact ⟨(tag, e), ⟨hmem, hmatch⟩, rfl, hname.symm, rfl⟩

/-- C5 witness: the spec's example, query `"xyz"` against identifier
`#XYZ123`, in both casings. -/
theorem claim_C5_witness :
    ((pys "#XYZ123", ([] : Str), Entry.mk [pys "神"] []) ∈
        search_hits (pys "xyz") [(pys "#XYZ123", Entry.mk [pys "神"] [])]
          (fun _ => none) ↔
      ((pys "#XYZ123", Entry.mk [pys "神"] []) ∈
          [(pys "#XYZ123", Entry.mk [pys "神"] [])] ∧
        ([] : Str) = nameOf (fun _ => none) (pys "#XYZ123") ∧
        (ciSubstr (pyStrip (pys "xyz")) (pys "#XYZ123") ∨
          ciSubstr (pyStrip (pys "xyz")) (nameOf (fun _ => none) (pys "#XYZ123"))))) ∧
    ((pys "#xyz123", ([] : Str), Entry.mk [pys "神"] []) ∈
        search_hits (pys "XYZ") [(pys "#xyz123", Entry.mk [pys "神"] [])]
          (fun _ => none) ↔
      ((pys "#xyz123", Entry.mk [pys "神"] []) ∈
          [(pys "#xyz123", Entry.mk [pys "神"] [])] ∧
        ([] : Str) = nameOf (fun _ => none) (pys "#xyz123") ∧
        (ciSubstr (pyStrip (pys "XYZ")) (pys "#xyz123") ∨
          ciSubstr (pyStrip (pys "XYZ")) (nameOf (fun _ => none) (pys "#xyz123"))))) :=
  ⟨claim_C5_search_match (pys "xyz") [(pys "#XYZ123", Entry.mk [pys "神"] [])]
     (fun _ => none) (pys "#XYZ123") [] (Entry.mk [pys "神"] []),
   claim_C5_search_match (pys "XYZ") [(pys "#xyz123", Entry.mk [pys "神"] [])]
     (fun _ => none) (pys "#xyz123") [] (Entry.mk [pys "神"] [])⟩

end BrawlBlacklist
